import Mathlib

/-!
# Verification of the PyFiberModes core: step-index layer model and root search

Shallow embedding of `PyFiberModes/fiber_geometry/stepindex.py` (class `StepIndex`)
and `PyFiberModes/solver/base_solver.py` (class `BaseSolver`).

Modelling conventions:
* Python floats are modelled as real numbers `ℝ`.
* The scipy special functions (`jn`, `yn`, `iv`, `kn` and their derivatives
  `jvp`, `yvp`, `ivp`, `kvp`) are external collaborators; they are modelled as an
  abstract record of functions `SpecialFns` passed explicitly to each definition
  that uses them.  The order-specific scipy entry points satisfy
  `j0 x = jn 0 x`, `j1 x = jn 1 x`, `y0 x = yn 0 x`, `y1 x = yn 1 x`,
  `i0 x = iv 0 x`, `i1 x = iv 1 x`, `k0 x = kn 0 x`, `k1 x = kn 1 x`
  and are embedded through the corresponding record field at order 0 or 1.
* The physical constants `constants.eta0` and `constants.Y0` live outside the
  packaged sources and are modelled as an abstract record `Constants`.
* A Python function that can raise on its input (e.g. `get_index` returning
  `None` which then crashes an arithmetic operation downstream) is embedded
  with result type `Option _`; `none` models the failed evaluation.
* `scipy.optimize.brentq` and `scipy.optimize.root` are external refinement
  routines; they are modelled as abstract function parameters.
* `numpy.nan` sentinels returned by the solver are modelled by a dedicated
  result constructor; the unbounded `while True:` loop of
  `find_function_first_root` (which does not terminate on some inputs, e.g. a
  supplied `highbound` below `lowbound`) is modelled with an explicit fuel
  argument, a fuel runout being reported by a separate constructor.
-/

namespace PyFiberModes

/-- The wavelength value object: the core only consumes its derived vacuum
wavenumber `wavelength.k0`. -/
structure Wavelength where
  k0 : ℝ

/-- Abstract record of the scipy Bessel-family evaluators used by
`stepindex.py`: ordinary Bessel `J`, `Y`, modified Bessel `I`, `K` of integer
order, and their first derivatives. -/
structure SpecialFns where
  jn : ℤ → ℝ → ℝ
  yn : ℤ → ℝ → ℝ
  iv : ℤ → ℝ → ℝ
  kn : ℤ → ℝ → ℝ
  jvp : ℤ → ℝ → ℝ
  yvp : ℤ → ℝ → ℝ
  ivp : ℤ → ℝ → ℝ
  kvp : ℤ → ℝ → ℝ

/-- Abstract record of the physical constants `PyFiberModes.constants`
(vacuum impedance `eta0`, vacuum admittance `Y0`), external to the packaged
sources. -/
structure Constants where
  eta0 : ℝ
  Y0 : ℝ

/-- One `StepIndex` geometry layer: inner radius, outer radius, and the
material model `material_type.get_refractive_index(wavelength, *params)`
as a function of the wavelength (a step-index layer's material does not
depend on the radius). -/
structure StepIndex where
  radius_in : ℝ
  radius_out : ℝ
  refractive_index : Wavelength → ℝ

namespace StepIndex

noncomputable section

/-- `StepIndex.get_index` (stepindex.py lines 14-29): the layer's index at a
radius, `none` (Python `None`) outside `radius_in ≤ |radius| ≤ radius_out`. -/
def get_index (L : StepIndex) (radius : ℝ) (wl : Wavelength) : Option ℝ :=
  if L.radius_in ≤ |radius| ∧ |radius| ≤ L.radius_out then
    some (L.refractive_index wl)
  else
    none

/-- `StepIndex.get_minimum_index` (stepindex.py lines 31-41). -/
def get_minimum_index (L : StepIndex) (wl : Wavelength) : ℝ :=
  L.refractive_index wl

/-- `StepIndex.get_maximum_index` (stepindex.py lines 43-53). -/
def get_maximum_index (L : StepIndex) (wl : Wavelength) : ℝ :=
  L.refractive_index wl

/-- `StepIndex.get_U_W_parameter` (stepindex.py lines 55-78):
`wavelength.k0 * radius * sqrt(abs(refractive_index**2 - neff**2))` where
`refractive_index = get_index(radius, wavelength)`; a `None` index makes the
arithmetic raise, modelled by propagating `none`. -/
def get_U_W_parameter (L : StepIndex) (radius neff : ℝ) (wl : Wavelength) :
    Option ℝ :=
  (get_index L radius wl).map fun n =>
    wl.k0 * radius * Real.sqrt |n ^ 2 - neff ^ 2|

/-- `StepIndex.Psi` (stepindex.py lines 80-131).  Returns the pair
`(psi, psip)`.  The Python truthiness test `if C[1]:` is `C.2 ≠ 0`.
Note the source really computes `psip = u * C[0] * jvp(nu, u) + C[1] * yvp(nu, u)`
(the factor `u` multiplies only the first product), and similarly in the
modified-Bessel branch. -/
def Psi (sf : SpecialFns) (L : StepIndex) (radius neff : ℝ) (wl : Wavelength)
    (nu : ℤ) (C : ℝ × ℝ) : Option (ℝ × ℝ) :=
  (get_U_W_parameter L radius neff wl).map fun u =>
    if neff < get_maximum_index L wl then
      if C.2 ≠ 0 then
        (C.1 * sf.jn nu u + C.2 * sf.yn nu u,
         u * C.1 * sf.jvp nu u + C.2 * sf.yvp nu u)
      else
        (C.1 * sf.jn nu u, u * C.1 * sf.jvp nu u)
    else
      if C.2 ≠ 0 then
        (C.1 * sf.iv nu u + C.2 * sf.kn nu u,
         u * C.1 * sf.ivp nu u + C.2 * sf.kvp nu u)
      else
        (C.1 * sf.iv nu u, u * C.1 * sf.ivp nu u)

/-- The basis-function ratios `F1, F2, F3, F4` and the factor `c1` computed by
`StepIndex.vConstants` (stepindex.py lines 273-288) from the outer-radius
argument `u` and the inner-radius argument `urp`.  In the evanescent branch the
source guards `F1` and `F3` with Python's `iv(nu, urp) / B1 if u else 1`
(the ratio is replaced by `1` when `u == 0`); no other ratio is guarded. -/
structure VRatios where
  F1 : ℝ
  F2 : ℝ
  F3 : ℝ
  F4 : ℝ
  c1 : ℝ

/-- The ratio block of `StepIndex.vConstants` (stepindex.py lines 273-288). -/
def vRatios (sf : SpecialFns) (L : StepIndex) (radius_out neff : ℝ)
    (wl : Wavelength) (nu : ℤ) (u urp : ℝ) : VRatios :=
  if neff < get_maximum_index L wl then
    { F1 := sf.jn nu urp / sf.jn nu u
      F2 := sf.yn nu urp / sf.yn nu u
      F3 := sf.jvp nu urp / sf.jn nu u
      F4 := sf.yvp nu urp / sf.yn nu u
      c1 := wl.k0 * radius_out / u }
  else
    { F1 := if u ≠ 0 then sf.iv nu urp / sf.iv nu u else 1
      F2 := sf.kn nu urp / sf.kn nu u
      F3 := if u ≠ 0 then sf.ivp nu urp / sf.iv nu u else 1
      F4 := sf.kvp nu urp / sf.kn nu u
      c1 := -(wl.k0 * radius_out) / u }

/-- The 4×4 system matrix `a` assembled by `StepIndex.vConstants`
(stepindex.py lines 290-305): `c2 = neff * nu / urp * c1`,
`c3 = eta0 * c1`, `c4 = Y0 * maximum_index**2 * c1`, and the thirteen
assignments into `numpy.zeros((4, 4))`. -/
def vCoefficientMatrix (sf : SpecialFns) (consts : Constants) (L : StepIndex)
    (radius_out neff : ℝ) (wl : Wavelength) (nu : ℤ) (u urp : ℝ) :
    Matrix (Fin 4) (Fin 4) ℝ :=
  let r := vRatios sf L radius_out neff wl nu u urp
  let c2 := neff * (nu : ℝ) / urp * r.c1
  let c3 := consts.eta0 * r.c1
  let c4 := consts.Y0 * get_maximum_index L wl ^ 2 * r.c1
  !![r.F1,        r.F2,        0,             0;
     0,           0,           r.F1,          r.F2;
     r.F1 * c2,   r.F2 * c2,   -(r.F3 * c3),  -(r.F4 * c3);
     r.F3 * c4,   r.F4 * c4,   -(r.F1 * c2),  -(r.F2 * c2)]

/-- `StepIndex.vConstants` (stepindex.py lines 249-307): build the 4×4 matrix
from the arguments at `radius_out` and `radius_in` and solve against the
right-hand side `EH`; `numpy.linalg.solve(a, EH)` is modelled as
multiplication by the matrix inverse. -/
def vConstants (sf : SpecialFns) (consts : Constants) (L : StepIndex)
    (radius_in radius_out neff : ℝ) (wl : Wavelength) (nu : ℤ)
    (EH : Fin 4 → ℝ) : Option (Fin 4 → ℝ) := do
  let u ← get_U_W_parameter L radius_out neff wl
  let urp ← get_U_W_parameter L radius_in neff wl
  pure (Matrix.mulVec (vCoefficientMatrix sf consts L radius_out neff wl nu u urp)⁻¹ EH)

/-- The ratio block of `StepIndex.tetmConstants` (stepindex.py lines 334-349):
order-0/1 scipy evaluators (`j0`, `y0`, `j1`, `y1`, `i0`, `k0`, `i1`, `k1`)
written through the integer-order record fields.  No ratio is guarded against
`u = 0` in this function. -/
def tetmRatios (sf : SpecialFns) (L : StepIndex) (radius_out neff : ℝ)
    (wl : Wavelength) (u urp : ℝ) : VRatios :=
  if neff < get_maximum_index L wl then
    { F1 := sf.jn 0 urp / sf.jn 0 u
      F2 := sf.yn 0 urp / sf.yn 0 u
      F3 := -sf.jn 1 urp / sf.jn 0 u
      F4 := -sf.yn 1 urp / sf.yn 0 u
      c1 := wl.k0 * radius_out / u }
  else
    { F1 := sf.iv 0 urp / sf.iv 0 u
      F2 := sf.kn 0 urp / sf.kn 0 u
      F3 := sf.iv 1 urp / sf.iv 0 u
      F4 := -sf.kn 1 urp / sf.kn 0 u
      c1 := -(wl.k0 * radius_out) / u }

/-- `StepIndex.tetmConstants` (stepindex.py lines 309-358): build the 2×2
matrix with `c3 = c * c1` and solve against `EH.take(idx)`. -/
def tetmConstants (sf : SpecialFns) (L : StepIndex)
    (radius_in radius_out neff : ℝ) (wl : Wavelength) (EH : Fin 4 → ℝ)
    (c : ℝ) (idx : Fin 4 × Fin 4) : Option (Fin 2 → ℝ) := do
  let u ← get_U_W_parameter L radius_out neff wl
  let urp ← get_U_W_parameter L radius_in neff wl
  let r := tetmRatios sf L radius_out neff wl u urp
  let c3 := c * r.c1
  let a : Matrix (Fin 2) (Fin 2) ℝ := !![r.F1, r.F2; r.F3 * c3, r.F4 * c3]
  pure (Matrix.mulVec a⁻¹ ![EH idx.1, EH idx.2])

/-- Shape of the coefficient object `self.C` assigned by
`StepIndex.EH_fields`: a length-4 vector (`numpy.array([...])`,
`numpy.zeros(4)`) for `nu = 0` layers and the solved hybrid case, or a 4×2
matrix (`numpy.zeros((4, 2))`) for the innermost hybrid case. -/
inductive CoefMat where
  | vec : (Fin 4 → ℝ) → CoefMat
  | mat : Matrix (Fin 4) (Fin 2) ℝ → CoefMat

/-- The coefficient-assignment portion of `StepIndex.EH_fields`
(stepindex.py lines 179-226), computing `self.C`.  The `u` computed at lines
171-177 is not used by this portion (both `tetmConstants` and `vConstants`
recompute their own arguments); it feeds only the field-output portion,
embedded separately as `EH_fields_out`. -/
def EH_fields_C (sf : SpecialFns) (consts : Constants) (L : StepIndex)
    (radius_in radius_out : ℝ) (nu : ℤ) (neff : ℝ) (wl : Wavelength)
    (EH : Fin 4 → ℝ) (TM : Bool) : Option CoefMat :=
  if radius_in = 0 then
    if nu = 0 then
      if TM then
        some (.vec ![1, 0, 0, 0])
      else
        some (.vec ![0, 0, 1, 0])
    else
      some (.mat (Matrix.of fun i j =>
        if i = 0 ∧ j = 0 then 1 else if i = 2 ∧ j = 1 then 1 else 0))
  else if nu = 0 then
    if TM then
      (tetmConstants sf L radius_in radius_out neff wl EH
          (consts.Y0 * get_maximum_index L wl ^ 2) (0, 3)).map
        fun t => .vec ![t 0, t 1, 0, 0]
    else
      (tetmConstants sf L radius_in radius_out neff wl EH
          (-consts.eta0) (1, 2)).map
        fun t => .vec ![0, 0, t 0, t 1]
  else
    (vConstants sf consts L radius_in radius_out neff wl nu EH).map .vec

/-- The field-output portion of `StepIndex.EH_fields` (stepindex.py lines
229-246), producing the updated `EH` 4-vector from the coefficient vector `C`
and the outer-radius argument `u` (the hybrid 4×2 case applies the same
formulas columnwise). -/
def EH_fields_out (sf : SpecialFns) (consts : Constants) (L : StepIndex)
    (radius_out : ℝ) (nu : ℤ) (neff : ℝ) (wl : Wavelength)
    (C : Fin 4 → ℝ) (u : ℝ) : Fin 4 → ℝ :=
  let m := get_maximum_index L wl
  let c1 := if neff < m then wl.k0 * radius_out / u else -(wl.k0 * radius_out) / u
  let F3 := if neff < m then sf.jvp nu u / sf.jn nu u else sf.ivp nu u / sf.iv nu u
  let F4 := if neff < m then sf.yvp nu u / sf.yn nu u else sf.kvp nu u / sf.kn nu u
  let c2 := neff * (nu : ℝ) / u * c1
  let c3 := consts.eta0 * c1
  let c4 := consts.Y0 * m ^ 2 * c1
  ![C 0 + C 1,
    C 2 + C 3,
    c2 * (C 0 + C 1) - c3 * (F3 * C 2 + F4 * C 3),
    c4 * (F3 * C 0 + F4 * C 1) - c2 * (C 2 + C 3)]

end

end StepIndex

namespace BaseSolver

noncomputable section

/-- `numpy.sign` on a real number. -/
def pySign (x : ℝ) : ℝ :=
  if x > 0 then 1 else if x < 0 then -1 else 0

/-- Python truthiness of the optional float `highbound`: `None` and `0.0` are
falsy, every other float is truthy. -/
def pyTruthy : Option ℝ → Bool
  | none => false
  | some x => if x = 0 then false else true

/-- Python `int(x)` on a float: truncation toward zero. -/
def pyInt (x : ℝ) : ℤ :=
  if 0 ≤ x then ⌊x⌋ else ⌈x⌉

/-- The guard `if highbound: if (b > highbound > lowbound) or
(b < highbound < lowbound): return nan` of
`BaseSolver.find_function_first_root` (base_solver.py lines 47-50), as the
condition under which the sentinel is returned for the sample `b`. -/
def crossesBound (lowbound : ℝ) (highbound : Option ℝ) (b : ℝ) : Bool :=
  match highbound with
  | none => false
  | some h =>
    if h = 0 then false
    else if (b > h ∧ h > lowbound) ∨ (b < h ∧ h < lowbound) then true else false

/-- Result of one scanning pass (the `for i in range(1, maxiter + 1)` loop of
`find_function_first_root`, base_solver.py lines 45-65): a root was found and
returned, the sentinel was returned because a sample crossed the bound, or the
iteration budget ran out (carrying the remaining `ipoints` list). -/
inductive ScanOutcome where
  | found : ℝ → ScanOutcome
  | outOfRange : ScanOutcome
  | exhausted : List ℝ → ScanOutcome

/-- The scanning loop of `BaseSolver.find_function_first_root`
(base_solver.py lines 45-65).  `bq` models `scipy.optimize.brentq` restricted
to its function and bracket arguments.  Each iteration: take the next sample
`b` (`ipoints.pop(0) if ipoints else a + delta`), return the sentinel if `b`
crosses a truthy `highbound`, return `b` if `f b == 0`, otherwise on a sign
change refine with `brentq` and return the refined point `z` only if
`abs(fa) > abs(fz) < abs(fb)` (the discontinuity-rejection test); in every
other case continue from `(b, fb)`. -/
def scanForRoot (bq : (ℝ → ℝ) → ℝ → ℝ → ℝ) (f : ℝ → ℝ) (lowbound : ℝ)
    (highbound : Option ℝ) (delta : ℝ) :
    ℝ → ℝ → List ℝ → ℕ → ScanOutcome
  | _, _, ip, 0 => .exhausted ip
  | a, fa, ip, n + 1 =>
    let b := match ip with
      | [] => a + delta
      | x :: _ => x
    let ip' := ip.tail
    if crossesBound lowbound highbound b then .outOfRange
    else
      let fb := f b
      if fb = 0 then .found b
      else if (fa > 0 ∧ fb < 0) ∨ (fa < 0 ∧ fb > 0) then
        let z := bq f a b
        let fz := f z
        if |fa| > |fz| ∧ |fz| < |fb| then .found z
        else scanForRoot bq f lowbound highbound delta b fb ip' n
      else scanForRoot bq f lowbound highbound delta b fb ip' n

/-- Result of `BaseSolver.find_function_first_root`: a root, the `numpy.nan`
sentinel, or fuel runout of the embedding (the source's `while True:` loop
does not terminate on some inputs). -/
inductive FindResult where
  | root : ℝ → FindResult
  | nan : FindResult
  | diverge : FindResult

/-- `BaseSolver.find_function_first_root` (base_solver.py lines 25-73).
One fuel unit per iteration of the `while True:` loop.  At each pass:
recompute `maxiter` (`len(ipoints)` if `ipoints` is nonempty, else
`int((highbound - lowbound) / delta)` if `highbound` is truthy, else the
`maxiter` argument), return `lowbound` if `f lowbound == 0`, run the scanning
loop, and on an exhausted budget restart with `delta / 10` from the same
`lowbound` when `highbound` is truthy and `maxiter < 100`, otherwise return
the sentinel. -/
def find_function_first_root (bq : (ℝ → ℝ) → ℝ → ℝ → ℝ) (f : ℝ → ℝ)
    (maxiter0 : ℕ) : ℕ → ℝ → Option ℝ → List ℝ → ℝ → FindResult
  | 0, _, _, _, _ => .diverge
  | fuel + 1, lowbound, highbound, ipoints, delta =>
    let maxiter : ℤ :=
      if ipoints ≠ [] then (ipoints.length : ℤ)
      else
        match highbound with
        | none => (maxiter0 : ℤ)
        | some h => if h = 0 then (maxiter0 : ℤ) else pyInt ((h - lowbound) / delta)
    let fa := f lowbound
    if fa = 0 then .root lowbound
    else
      match scanForRoot bq f lowbound highbound delta lowbound fa ipoints
          maxiter.toNat with
      | .found x => .root x
      | .outOfRange => .nan
      | .exhausted ip' =>
        if pyTruthy highbound = true ∧ maxiter < 100 then
          find_function_first_root bq f maxiter0 fuel lowbound highbound ip'
            (delta / 10)
        else .nan

/-- `BaseSolver.find_root_within_range` (base_solver.py lines 75-103).
`rs` models `scipy.optimize.root(fun=function, x0=x_low, args=...).x[0]`.
The Boolean component records whether the out-of-range warning was logged;
the root value is returned unconditionally.  The `max_iteration` parameter is
accepted and unused, as in the source. -/
def find_root_within_range (rs : (ℝ → ℝ) → ℝ → ℝ) (f : ℝ → ℝ)
    (x_low x_high : ℝ) (max_iteration : ℕ) : ℝ × Bool :=
  let _ := max_iteration
  let z := rs f x_low
  (z, if x_low < z ∧ z < x_high then false else true)

/-- `BaseSolver.update_root_range` (base_solver.py lines 135-167): evaluate the
function at the midpoint and replace the high endpoint when the midpoint value
is positive, the low endpoint otherwise.  Returns
`(x_low, x_high, y_low, y_high)`. -/
def update_root_range (f : ℝ → ℝ) (x_low x_high y_low y_high : ℝ) :
    ℝ × ℝ × ℝ × ℝ :=
  let x_mid := (x_low + x_high) / 2
  let y_mid := f x_mid
  if y_mid > 0 then (x_low, x_mid, y_low, y_mid)
  else (x_mid, x_high, y_mid, y_high)

/-- The loop of `BaseSolver._find_root_within_range` (base_solver.py lines
112-130), carrying `(x_low, x_high, y_low, y_high)`.  On
`numpy.sign(y_low) != numpy.sign(y_high)` refine with `brentq` and return the
refined point only if `abs(y_low) > abs(y_root) < abs(y_high)`; otherwise
halve the range with `update_root_range` and continue.  `none` models the
`numpy.nan` returned when `max_iteration` runs out. -/
def find_root_within_range_aux (bq : (ℝ → ℝ) → ℝ → ℝ → ℝ) (f : ℝ → ℝ) :
    ℝ → ℝ → ℝ → ℝ → ℕ → Option ℝ
  | _, _, _, _, 0 => none
  | xl, xh, yl, yh, j + 1 =>
    if pySign yl ≠ pySign yh then
      let xr := bq f xl xh
      let yr := f xr
      if |yl| > |yr| ∧ |yr| < |yh| then some xr
      else
        let t := update_root_range f xl xh yl yh
        find_root_within_range_aux bq f t.1 t.2.1 t.2.2.1 t.2.2.2 j
    else
      let t := update_root_range f xl xh yl yh
      find_root_within_range_aux bq f t.1 t.2.1 t.2.2.1 t.2.2.2 j

/-- `BaseSolver._find_root_within_range` (base_solver.py lines 105-133):
initialize `y_low, y_high` from the function and run the loop. -/
def find_root_within_range_priv (bq : (ℝ → ℝ) → ℝ → ℝ → ℝ) (f : ℝ → ℝ)
    (x_low x_high : ℝ) (max_iteration : ℕ) : Option ℝ :=
  find_root_within_range_aux bq f x_low x_high (f x_low) (f x_high)
    max_iteration

end

end BaseSolver

open StepIndex BaseSolver

/-! ## Concrete instances used by witnesses and counterexamples -/

noncomputable section

/-- Wavelength with vacuum wavenumber 1. -/
def wlOne : Wavelength := ⟨1⟩

/-- Wavelength with vacuum wavenumber 3. -/
def wlThree : Wavelength := ⟨3⟩

/-- Layer of constant refractive index 1 spanning radii `[0, 3]`. -/
def layerOne : StepIndex := ⟨0, 3, fun _ => 1⟩

/-- Layer of constant refractive index 0 spanning radii `[0, 3]`. -/
def layerZero : StepIndex := ⟨0, 3, fun _ => 0⟩

/-- Special-function record that is constantly 1 in every slot. -/
def sfOnes : SpecialFns :=
  ⟨fun _ _ => 1, fun _ _ => 1, fun _ _ => 1, fun _ _ => 1,
   fun _ _ => 1, fun _ _ => 1, fun _ _ => 1, fun _ _ => 1⟩

/-- Like `sfOnes` but with a different modified-Bessel `I` evaluator; agrees
with `sfOnes` on the ordinary-Bessel slots `jn, yn, jvp, yvp`. -/
def sfModAlt : SpecialFns := { sfOnes with iv := fun _ _ => 42 }

/-- Like `sfOnes` but with `kn n x = x + 1`. -/
def sfKnShift : SpecialFns := { sfOnes with kn := fun _ x => x + 1 }

/-- Like `sfOnes` but with `jn n x = 5` and `yn n x = 7`. -/
def sfPsiBug : SpecialFns := { sfOnes with jn := fun _ _ => 5, yn := fun _ _ => 7 }

/-- Arbitrary concrete physical constants. -/
def constsA : Constants := ⟨377, 1 / 377⟩

/-- A degenerate refinement routine that always answers 0. -/
def bqZero : (ℝ → ℝ) → ℝ → ℝ → ℝ := fun _ _ _ => 0

/-- A degenerate refinement routine that answers the left bracket endpoint. -/
def bqLeft : (ℝ → ℝ) → ℝ → ℝ → ℝ := fun _ a _ => a

/-- The identity characteristic function. -/
def fId : ℝ → ℝ := fun x => x

/-- The constant-1 characteristic function (no roots, no sign change). -/
def fOne : ℝ → ℝ := fun _ => 1

/-- The characteristic function `x - 1` (root at 1). -/
def fShift : ℝ → ℝ := fun x => x - 1

end

/-- Two special-function records agree on the ordinary Bessel slots
`jn, yn, jvp, yvp` (the (J, Y) basis pair and its derivatives). -/
def agreesJY (sf sf' : SpecialFns) : Prop :=
  sf.jn = sf'.jn ∧ sf.yn = sf'.yn ∧ sf.jvp = sf'.jvp ∧ sf.yvp = sf'.yvp

/-- Two special-function records agree on the modified Bessel slots
`iv, kn, ivp, kvp` (the (I, K) basis pair and its derivatives). -/
def agreesIK (sf sf' : SpecialFns) : Prop :=
  sf.iv = sf'.iv ∧ sf.kn = sf'.kn ∧ sf.ivp = sf'.ivp ∧ sf.kvp = sf'.kvp

/-! ## Claims -/

/-- Claim C1: the field evaluation (`Psi`, and the F-ratio construction in
`EH_fields`/`vConstants`) selects the ordinary Bessel basis pair (J, Y) of
order `nu` exactly when `neff < n_layer` (the layer's maximum index), and the
modified pair (I, K) exactly when `neff ≥ n_layer`: in the oscillatory regime
the results depend only on the `jn, yn, jvp, yvp` slots of the
special-function record, and in the evanescent regime only on the
`iv, kn, ivp, kvp` slots. -/
theorem C1_basis_selection (sf sf' : SpecialFns) (consts : Constants)
    (L : StepIndex) (radius radius_out neff : ℝ) (wl : Wavelength) (nu : ℤ)
    (C : ℝ × ℝ) (u urp : ℝ) (Cv : Fin 4 → ℝ) :
    (neff < get_maximum_index L wl → agreesJY sf sf' →
      Psi sf L radius neff wl nu C = Psi sf' L radius neff wl nu C ∧
      vRatios sf L radius_out neff wl nu u urp =
        vRatios sf' L radius_out neff wl nu u urp ∧
      EH_fields_out sf consts L radius_out nu neff wl Cv u =
        EH_fields_out sf' consts L radius_out nu neff wl Cv u) ∧
    (get_maximum_index L wl ≤ neff → agreesIK sf sf' →
      Psi sf L radius neff wl nu C = Psi sf' L radius neff wl nu C ∧
      vRatios sf L radius_out neff wl nu u urp =
        vRatios sf' L radius_out neff wl nu u urp ∧
      EH_fields_out sf consts L radius_out nu neff wl Cv u =
        EH_fields_out sf' consts L radius_out nu neff wl Cv u) := by
  constructor
  · rintro h ⟨h1, h2, h3, h4⟩
    refine ⟨?_, ?_, ?_⟩
    · simp only [Psi, if_pos h, h1, h2, h3, h4]
    · simp only [vRatios, if_pos h, h1, h2, h3, h4]
    · simp only [EH_fields_out, if_pos h, h1, h2, h3, h4]
  · rintro h ⟨h1, h2, h3, h4⟩
    have h' : ¬neff < get_maximum_index L wl := not_lt.mpr h
    refine ⟨?_, ?_, ?_⟩
    · simp only [Psi, if_neg h', h1, h2, h3, h4]
    · simp only [vRatios, if_neg h', h1, h2, h3, h4]
    · simp only [EH_fields_out, if_neg h', h1, h2, h3, h4]

/-- Witness for C1 in the oscillatory regime (`neff = 0 < 1`): changing only
the modified-Bessel slot `iv` (from `sfOnes` to `sfModAlt`) leaves `Psi`
unchanged. -/
theorem C1_basis_selection_witness :
    (0 : ℝ) < get_maximum_index layerOne wlOne ∧
    Psi sfOnes layerOne 2 0 wlOne 1 (1, 1) =
      Psi sfModAlt layerOne 2 0 wlOne 1 (1, 1) := by
  have h : (0 : ℝ) < get_maximum_index layerOne wlOne := by
    norm_num [get_maximum_index, layerOne]
  refine ⟨h, ?_⟩
  exact ((C1_basis_selection sfOnes sfModAlt constsA layerOne 2 0 0 wlOne 1
    (1, 1) 0 0 (fun _ => 0)).1 h ⟨rfl, rfl, rfl, rfl⟩).1

/-- Claim C2: for every layer, radius, trial effective index and wavelength,
`get_U_W_parameter` returns exactly `k0 * r * sqrt(|n_layer^2 - n_eff^2|)`,
where `n_layer` is the layer's refractive index at radius `r` (i.e. whenever
`get_index` yields a value `n` there). -/
theorem C2_U_W_parameter (L : StepIndex) (radius neff : ℝ) (wl : Wavelength)
    (n : ℝ) (h : get_index L radius wl = some n) :
    get_U_W_parameter L radius neff wl =
      some (wl.k0 * radius * Real.sqrt |n ^ 2 - neff ^ 2|) := by
  unfold get_U_W_parameter
  rw [h, Option.map_some']

/-- Witness for C2 at the layer of index 1 on `[0, 3]`, radius 1, trial index
0 and wavenumber 3: the argument evaluates to `3 * 1 * sqrt 1 = 3`. -/
theorem C2_U_W_parameter_witness :
    get_index layerOne 1 wlThree = some 1 ∧
    get_U_W_parameter layerOne 1 0 wlThree = some 3 := by
  have h : get_index layerOne 1 wlThree = some 1 := by
    unfold get_index
    norm_num [layerOne]
  refine ⟨h, ?_⟩
  rw [C2_U_W_parameter layerOne 1 0 wlThree 1 h]
  norm_num [wlThree, Real.sqrt_one]

/-- Counterexample to claim C4 as stated: the fallback to the closed-form
value 1 at `u = 0` does not apply to every ratio.  At the concrete evanescent
input below (`u = 0`, `urp = 1`, both produced by `get_U_W_parameter` exactly
as `vConstants` computes them, with `kn n x = x + 1`), the ratio `F2` is
computed by direct division as `kn 1 1 / kn 1 0 = 2 ≠ 1`; `F2` also appears
unscaled as the matrix entry `a[0, 1]`. -/
theorem C4_counterexample :
    get_U_W_parameter layerZero 0 1 wlOne = some 0 ∧
    get_U_W_parameter layerZero 1 1 wlOne = some 1 ∧
    ¬(1 : ℝ) < get_maximum_index layerZero wlOne ∧
    (vRatios sfKnShift layerZero 0 1 wlOne 1 0 1).F2 = 2 ∧
    vCoefficientMatrix sfKnShift constsA layerZero 0 1 wlOne 1 0 1 0 1 = 2 ∧
    (2 : ℝ) ≠ 1 := by
  refine ⟨?_, ?_, ?_, ?_, ?_, by norm_num⟩
  · unfold get_U_W_parameter get_index
    norm_num [layerZero, wlOne]
  · unfold get_U_W_parameter get_index
    norm_num [layerZero, wlOne, Real.sqrt_one]
  · norm_num [get_maximum_index, layerZero]
  · have h : ¬(1 : ℝ) < get_maximum_index layerZero wlOne := by
      norm_num [get_maximum_index, layerZero]
    unfold vRatios
    rw [if_neg h]
    norm_num [sfKnShift, sfOnes]
  · have h : ¬(1 : ℝ) < get_maximum_index layerZero wlOne := by
      norm_num [get_maximum_index, layerZero]
    unfold vCoefficientMatrix vRatios
    rw [if_neg h]
    norm_num [sfKnShift, sfOnes, Matrix.cons_val_zero, Matrix.cons_val_one,
      Matrix.head_cons]

/-- Claim C4 amended: the closed-form fallback `ratio → 1` at outer argument
`u = 0` applies exactly to the two ratios whose denominator is the modified
Bessel `I` value, `F1` and `F3`, in the evanescent regime of `vConstants`;
`F2` and `F4` (denominator `K`), the oscillatory regime, and `tetmConstants`
compute their ratios by direct division with no fallback. -/
theorem C4_amended_fallback (sf : SpecialFns) (L : StepIndex)
    (radius_out neff : ℝ) (wl : Wavelength) (nu : ℤ) (urp : ℝ)
    (h : ¬neff < get_maximum_index L wl) :
    (vRatios sf L radius_out neff wl nu 0 urp).F1 = 1 ∧
    (vRatios sf L radius_out neff wl nu 0 urp).F3 = 1 := by
  unfold vRatios
  rw [if_neg h]
  constructor <;> simp

/-- Witness for the amended C4 at the concrete evanescent input of the
counterexample: `F1` does fall back to 1 at `u = 0`. -/
theorem C4_amended_fallback_witness :
    ¬(1 : ℝ) < get_maximum_index layerZero wlOne ∧
    (vRatios sfKnShift layerZero 0 1 wlOne 1 0 1).F1 = 1 := by
  have h : ¬(1 : ℝ) < get_maximum_index layerZero wlOne := by
    norm_num [get_maximum_index, layerZero]
  exact ⟨h, (C4_amended_fallback sfKnShift layerZero 0 1 wlOne 1 1 h).1⟩

/-- Claim C5 (code bug): the spec requires the derivative
`psip = u * (C0 * jvp + C1 * yvp)` with the scaling `u` applied to both basis
terms, but `Psi` computes `u * C[0] * jvp(nu, u) + C[1] * yvp(nu, u)`, scaling
only the first term (the `C[1] == 0` branch of the same function does scale
its single term by `u`).  At `u = 2`, `jvp = yvp = 1`, `C = (1, 1)` the code
yields `psip = 2 * 1 * 1 + 1 * 1 = 3` whereas the claimed identity gives
`2 * (1 * 1 + 1 * 1) = 4`. -/
theorem C5_psip_scaling_bug :
    Psi sfPsiBug layerOne 2 0 wlOne 1 (1, 1) = some (12, 3) ∧
    (3 : ℝ) ≠ 2 * (1 * 1 + 1 * 1) := by
  constructor
  · have hu : get_U_W_parameter layerOne 2 0 wlOne = some 2 := by
      unfold get_U_W_parameter get_index
      norm_num [layerOne, wlOne, Real.sqrt_one]
    unfold Psi
    rw [hu, Option.map_some']
    norm_num [get_maximum_index, layerOne, sfPsiBug, sfOnes]
  · norm_num

/-- Unfolding equation for one pass of the `while True:` loop of
`find_function_first_root`. -/
theorem find_function_first_root_succ (bq : (ℝ → ℝ) → ℝ → ℝ → ℝ) (f : ℝ → ℝ)
    (maxiter0 fuel : ℕ) (lowbound : ℝ) (highbound : Option ℝ)
    (ipoints : List ℝ) (delta : ℝ) :
    find_function_first_root bq f maxiter0 (fuel + 1) lowbound highbound
        ipoints delta =
      (let maxiter : ℤ :=
        if ipoints ≠ [] then (ipoints.length : ℤ)
        else
          match highbound with
          | none => (maxiter0 : ℤ)
          | some h => if h = 0 then (maxiter0 : ℤ) else pyInt ((h - lowbound) / delta)
      if f lowbound = 0 then .root lowbound
      else
        match scanForRoot bq f lowbound highbound delta lowbound (f lowbound)
            ipoints maxiter.toNat with
        | .found x => .root x
        | .outOfRange => .nan
        | .exhausted ip' =>
          if pyTruthy highbound = true ∧ maxiter < 100 then
            find_function_first_root bq f maxiter0 fuel lowbound highbound ip'
              (delta / 10)
          else .nan) := by
  simp only [find_function_first_root]

/-- The scanning loop reports exhaustion when its budget is zero. -/
theorem scanForRoot_zero (bq : (ℝ → ℝ) → ℝ → ℝ → ℝ) (f : ℝ → ℝ)
    (lowbound : ℝ) (highbound : Option ℝ) (delta a fa : ℝ) (ip : List ℝ) :
    scanForRoot bq f lowbound highbound delta a fa ip 0 = .exhausted ip := rfl

/-- One scanning step with empty `ipoints`: the sample `b = a + delta` does
not cross the bound and `f b = 0`, so the scan returns `b`. -/
theorem scanForRoot_succ_found (bq : (ℝ → ℝ) → ℝ → ℝ → ℝ) (f : ℝ → ℝ)
    (lowbound : ℝ) (highbound : Option ℝ) (delta a fa : ℝ) (n : ℕ)
    (hcross : crossesBound lowbound highbound (a + delta) = false)
    (hfb : f (a + delta) = 0) :
    scanForRoot bq f lowbound highbound delta a fa [] (n + 1) =
      .found (a + delta) := by
  simp only [scanForRoot]
  simp [hcross, hfb]

/-- One scanning step with empty `ipoints`, no bound crossing, a nonzero
sample value and no sign change: the scan continues from `(b, f b)`. -/
theorem scanForRoot_succ_nostep (bq : (ℝ → ℝ) → ℝ → ℝ → ℝ) (f : ℝ → ℝ)
    (lowbound : ℝ) (highbound : Option ℝ) (delta a fa : ℝ) (n : ℕ)
    (hcross : crossesBound lowbound highbound (a + delta) = false)
    (hfb : f (a + delta) ≠ 0)
    (hsign : ¬((fa > 0 ∧ f (a + delta) < 0) ∨ (fa < 0 ∧ f (a + delta) > 0))) :
    scanForRoot bq f lowbound highbound delta a fa [] (n + 1) =
      scanForRoot bq f lowbound highbound delta (a + delta) (f (a + delta)) []
        n := by
  simp only [scanForRoot]
  simp [hcross, hfb, hsign]

/-- Claim C3: in both root searches, after a sign change between `a` and the
next sample `b` is refined by `brentq` to a candidate `z`, the candidate is
returned as a root exactly when `|f z| < |f a|` and `|f z| < |f b|`; when the
test fails the candidate is discarded and the search continues (the scanning
loop from `b` past the bracket, the bisection loop on the halved range), so a
pole-induced sign change is not returned at its bracket. -/
theorem C3_discontinuity_rejection (bq : (ℝ → ℝ) → ℝ → ℝ → ℝ) (f : ℝ → ℝ)
    (lowbound : ℝ) (highbound : Option ℝ) (delta a : ℝ) (n : ℕ)
    (xl xh : ℝ) (j : ℕ)
    (hcross : crossesBound lowbound highbound (a + delta) = false)
    (hfb : f (a + delta) ≠ 0)
    (hsign : (f a > 0 ∧ f (a + delta) < 0) ∨ (f a < 0 ∧ f (a + delta) > 0))
    (hsign2 : pySign (f xl) ≠ pySign (f xh)) :
    (scanForRoot bq f lowbound highbound delta a (f a) [] (n + 1) =
      if |f a| > |f (bq f a (a + delta))| ∧
          |f (bq f a (a + delta))| < |f (a + delta)|
      then .found (bq f a (a + delta))
      else scanForRoot bq f lowbound highbound delta (a + delta)
        (f (a + delta)) [] n) ∧
    (find_root_within_range_aux bq f xl xh (f xl) (f xh) (j + 1) =
      if |f xl| > |f (bq f xl xh)| ∧ |f (bq f xl xh)| < |f xh|
      then some (bq f xl xh)
      else find_root_within_range_aux bq f
        (update_root_range f xl xh (f xl) (f xh)).1
        (update_root_range f xl xh (f xl) (f xh)).2.1
        (update_root_range f xl xh (f xl) (f xh)).2.2.1
        (update_root_range f xl xh (f xl) (f xh)).2.2.2 j) := by
  constructor
  · simp only [scanForRoot]
    simp [hcross, hfb, hsign]
  · simp only [find_root_within_range_aux]
    simp [hsign2]

/-- Witness for C3 with `f = id` on the bracket `(-1, 1)` and a refiner
answering 0: the magnitude test `1 > 0 < 1` passes and the refined point is
returned by both searches. -/
theorem C3_discontinuity_rejection_witness :
    scanForRoot bqZero fId 0 none 2 (-1) (-1) [] 1 = .found 0 ∧
    find_root_within_range_aux bqZero fId (-1) 1 (-1) 1 1 = some 0 := by
  have h := C3_discontinuity_rejection bqZero fId 0 none 2 (-1) 0 (-1) 1 0
    (by rfl) (by norm_num [fId]) (by norm_num [fId])
    (by norm_num [pySign, fId])
  constructor
  · have h1 := h.1
    rw [if_pos (by norm_num [fId, bqZero])] at h1
    calc scanForRoot bqZero fId 0 none 2 (-1) (-1) [] 1
        = scanForRoot bqZero fId 0 none 2 (-1) (fId (-1)) [] (0 + 1) := rfl
      _ = .found (bqZero fId (-1) (-1 + 2)) := h1
      _ = .found 0 := rfl
  · have h2 := h.2
    rw [if_pos (by norm_num [fId, bqZero])] at h2
    calc find_root_within_range_aux bqZero fId (-1) 1 (-1) 1 1
        = find_root_within_range_aux bqZero fId (-1) 1 (fId (-1)) (fId 1)
            (0 + 1) := rfl
      _ = some (bqZero fId (-1) 1) := h2
      _ = some 0 := rfl

/-- Counterexample to claim C6 as stated: with the finite supplied
`highbound = 0.0` (and `lowbound = -1`), the sample `b = 1` crosses the
highbound (`1 > 0 > -1`), so by the claim the function must return the NaN
sentinel; instead Python truthiness treats `highbound = 0.0` as absent, the
crossing test is skipped, and the sampled root `b = 1` — beyond the bound —
is returned. -/
theorem C6_counterexample :
    find_function_first_root bqLeft fShift 1 1 (-1) (some 0) [] 2 = .root 1 ∧
    ((1 : ℝ) > 0 ∧ (0 : ℝ) > -1) ∧
    FindResult.root (1 : ℝ) ≠ FindResult.nan := by
  refine ⟨?_, by norm_num, by simp⟩
  have hscan : scanForRoot bqLeft fShift (-1) (some 0) 2 (-1) (fShift (-1)) []
      1 = .found 1 := by
    have h1 := scanForRoot_succ_found bqLeft fShift (-1) (some 0) 2 (-1)
      (fShift (-1)) 0 (by simp [crossesBound]) (by norm_num [fShift])
    calc scanForRoot bqLeft fShift (-1) (some 0) 2 (-1) (fShift (-1)) [] 1
        = scanForRoot bqLeft fShift (-1) (some 0) 2 (-1) (fShift (-1)) []
          (0 + 1) := rfl
      _ = .found (-1 + 2) := h1
      _ = .found 1 := by norm_num
  have hunf := find_function_first_root_succ bqLeft fShift 1 0 (-1) (some 0)
    [] 2
  simp only [if_pos (rfl : (0 : ℝ) = 0)] at hunf
  norm_num at hunf
  rw [if_neg (by norm_num [fShift] : ¬fShift (-1) = 0), hscan] at hunf
  exact hunf

/-- Claim C6 amended: for a *nonzero* finite `highbound` (Python truthiness
treats `highbound = 0.0` as absent), when the scanning pass exhausts its
budget without accepting a root, the step size is divided by exactly 10 and
scanning restarts from the domain low end, but only while `maxiter < 100`;
when the cap forbids a restart, or when a sampled point crosses the
highbound, the function returns the NaN sentinel rather than raising. -/
theorem C6_amended_step_reduction (bq : (ℝ → ℝ) → ℝ → ℝ → ℝ) (f : ℝ → ℝ)
    (maxiter0 fuel : ℕ) (lowbound h delta : ℝ) (ipoints : List ℝ)
    (maxiter : ℤ) (hh : h ≠ 0) (hfa : f lowbound ≠ 0)
    (hmax : maxiter = if ipoints ≠ [] then (ipoints.length : ℤ)
            else pyInt ((h - lowbound) / delta)) :
    (∀ ip', scanForRoot bq f lowbound (some h) delta lowbound (f lowbound)
        ipoints maxiter.toNat = .exhausted ip' →
      (maxiter < 100 →
        find_function_first_root bq f maxiter0 (fuel + 1) lowbound (some h)
            ipoints delta =
          find_function_first_root bq f maxiter0 fuel lowbound (some h) ip'
            (delta / 10)) ∧
      (100 ≤ maxiter →
        find_function_first_root bq f maxiter0 (fuel + 1) lowbound (some h)
            ipoints delta = .nan)) ∧
    (scanForRoot bq f lowbound (some h) delta lowbound (f lowbound) ipoints
        maxiter.toNat = .outOfRange →
      find_function_first_root bq f maxiter0 (fuel + 1) lowbound (some h)
        ipoints delta = .nan) := by
  have hunf := find_function_first_root_succ bq f maxiter0 fuel lowbound
    (some h) ipoints delta
  simp only [if_neg hh] at hunf
  rw [← hmax] at hunf
  rw [if_neg hfa] at hunf
  have hT : pyTruthy (some h) = true := by simp [pyTruthy, hh]
  constructor
  · intro ip' hscan
    rw [hscan] at hunf
    constructor
    · intro hlt
      rw [hunf]
      show (if pyTruthy (some h) = true ∧ maxiter < 100 then
          find_function_first_root bq f maxiter0 fuel lowbound (some h) ip'
            (delta / 10)
        else FindResult.nan) = _
      exact if_pos ⟨hT, hlt⟩
    · intro hge
      rw [hunf]
      show (if pyTruthy (some h) = true ∧ maxiter < 100 then
          find_function_first_root bq f maxiter0 fuel lowbound (some h) ip'
            (delta / 10)
        else FindResult.nan) = _
      refine if_neg ?_
      rintro ⟨-, hlt⟩
      omega
  · intro hscan
    rw [hscan] at hunf
    exact hunf

/-- Witness for the amended C6: `f = 1` never vanishes on `[0, 1]` with step
1, the single-sample scan exhausts its budget, `maxiter = 1 < 100`, and the
pass restarts with step `1 / 10`. -/
theorem C6_amended_step_reduction_witness :
    scanForRoot bqLeft fOne 0 (some 1) 1 0 (fOne 0) [] (Int.toNat 1) =
      .exhausted [] ∧
    find_function_first_root bqLeft fOne 0 1 0 (some 1) [] 1 =
      find_function_first_root bqLeft fOne 0 0 0 (some 1) [] (1 / 10) := by
  have hscan : scanForRoot bqLeft fOne 0 (some 1) 1 0 (fOne 0) []
      (Int.toNat 1) = .exhausted [] := by
    have h1 := scanForRoot_succ_nostep bqLeft fOne 0 (some 1) 1 0 (fOne 0) 0
      (by norm_num [crossesBound]) (by norm_num [fOne]) (by norm_num [fOne])
    calc scanForRoot bqLeft fOne 0 (some 1) 1 0 (fOne 0) [] (Int.toNat 1)
        = scanForRoot bqLeft fOne 0 (some 1) 1 0 (fOne 0) [] (0 + 1) := rfl
      _ = scanForRoot bqLeft fOne 0 (some 1) 1 (0 + 1) (fOne (0 + 1)) [] 0 :=
          h1
      _ = .exhausted [] := rfl
  have hmax : (1 : ℤ) = if ([] : List ℝ) ≠ [] then (([] : List ℝ).length : ℤ)
      else pyInt ((1 - 0) / 1) := by
    norm_num [pyInt]
  refine ⟨hscan, ?_⟩
  have := ((C6_amended_step_reduction bqLeft fOne 0 0 0 1 1 [] 1
    (by norm_num) (by norm_num [fOne]) hmax).1 [] hscan).1 (by norm_num)
  exact this

/-- Claim C7: in `EH_fields`, for the innermost layer (`radius_in = 0`) the
coefficient object is initialized directly with no linear solve (the result
does not depend on `EH`, the special functions, the constants or `neff`):
for `nu = 0` it is `[1,0,0,0]` (TM) or `[0,0,1,0]` (TE); for `nu ≠ 0` it is
the 4×2 structure that is zero except for the unit entries `C[0,0] = 1`
(unit Ez excitation) and `C[2,1] = 1` (unit Hz excitation). -/
theorem C7_innermost_coefficients (sf : SpecialFns) (consts : Constants)
    (L : StepIndex) (radius_out : ℝ) (nu : ℤ) (neff : ℝ) (wl : Wavelength)
    (EH : Fin 4 → ℝ) (TM : Bool) :
    EH_fields_C sf consts L 0 radius_out nu neff wl EH TM =
      some (if nu = 0 then
              (if TM then CoefMat.vec ![1, 0, 0, 0] else CoefMat.vec ![0, 0, 1, 0])
            else
              CoefMat.mat !![1, 0; 0, 0; 0, 1; 0, 0]) := by
  unfold EH_fields_C
  rw [if_pos (show (0 : ℝ) = 0 from rfl)]
  by_cases hnu : nu = 0
  · rw [if_pos hnu, if_pos hnu]
    cases TM <;> rfl
  · rw [if_neg hnu, if_neg hnu]
    congr 2
    funext i j
    fin_cases i <;> fin_cases j <;>
      simp [Matrix.of_apply, Matrix.vecHead, Matrix.vecTail]

/-- Claim C8: `find_root_within_range` always hands the refined root back to
the caller; a root outside `(x_low, x_high)` only raises the warning flag and
is never discarded or replaced by a sentinel. -/
theorem C8_out_of_range_root_returned (rs : (ℝ → ℝ) → ℝ → ℝ) (f : ℝ → ℝ)
    (x_low x_high : ℝ) (mi : ℕ) :
    (find_root_within_range rs f x_low x_high mi).1 = rs f x_low ∧
    ((find_root_within_range rs f x_low x_high mi).2 = true ↔
      ¬(x_low < rs f x_low ∧ rs f x_low < x_high)) := by
  refine ⟨rfl, ?_⟩
  by_cases h : x_low < rs f x_low ∧ rs f x_low < x_high
  · simp [find_root_within_range, h]
  · simp [find_root_within_range, h]

/-- Claim C9: a `StepIndex` layer is radially homogeneous: `get_minimum_index`
and `get_maximum_index` coincide, and `get_index` at any radius of
`[radius_in, radius_out]` returns that same material index. -/
theorem C9_layer_homogeneous (L : StepIndex) (wl : Wavelength) (r : ℝ) :
    get_minimum_index L wl = get_maximum_index L wl ∧
    (0 ≤ L.radius_in → L.radius_in ≤ r → r ≤ L.radius_out →
      get_index L r wl = some (get_minimum_index L wl)) := by
  refine ⟨rfl, fun h0 h1 h2 => ?_⟩
  have habs : |r| = r := abs_of_nonneg (h0.trans h1)
  have h1' : L.radius_in ≤ |r| := by rw [habs]; exact h1
  have h2' : |r| ≤ L.radius_out := by rw [habs]; exact h2
  unfold get_index
  rw [if_pos ⟨h1', h2'⟩]
  rfl

/-- Witness for C9 on the layer of index 1 over `[0, 3]` at radius 1. -/
theorem C9_layer_homogeneous_witness :
    get_index layerOne 1 wlOne = some (get_minimum_index layerOne wlOne) ∧
    get_minimum_index layerOne wlOne = 1 := by
  refine ⟨(C9_layer_homogeneous layerOne wlOne 1).2 ?_ ?_ ?_, rfl⟩ <;>
    norm_num [layerOne]

/-- Claim C10: `update_root_range` returns a nested half-width interval with
exactly one endpoint replaced by the midpoint (the high endpoint when the
midpoint's function value is positive, the low endpoint otherwise), and the
returned `y` values are the function values at the returned endpoints
(assuming the incoming `y` values are the function values at the incoming
endpoints, as maintained by its caller). -/
theorem C10_update_root_range (f : ℝ → ℝ) (x_low x_high y_low y_high : ℝ)
    (t : ℝ × ℝ × ℝ × ℝ)
    (ht : update_root_range f x_low x_high y_low y_high = t)
    (hle : x_low ≤ x_high) (hyl : y_low = f x_low) (hyh : y_high = f x_high) :
    (x_low ≤ t.1 ∧ t.1 ≤ t.2.1 ∧ t.2.1 ≤ x_high) ∧
    t.2.1 - t.1 = (x_high - x_low) / 2 ∧
    (if f ((x_low + x_high) / 2) > 0
      then t.1 = x_low ∧ t.2.1 = (x_low + x_high) / 2
      else t.1 = (x_low + x_high) / 2 ∧ t.2.1 = x_high) ∧
    t.2.2.1 = f t.1 ∧ t.2.2.2 = f t.2.1 := by
  subst ht hyl hyh
  simp only [update_root_range]
  by_cases h : f ((x_low + x_high) / 2) > 0
  · rw [if_pos h, if_pos h]
    refine ⟨⟨le_rfl, by linarith, by linarith⟩, by ring, ⟨rfl, rfl⟩, rfl, rfl⟩
  · rw [if_neg h, if_neg h]
    refine ⟨⟨by linarith, by linarith, le_rfl⟩, by ring, ⟨rfl, rfl⟩, rfl, rfl⟩

/-- Witness for C10 with `f = id` on `[0, 2]`: the midpoint value `1` is
positive, so the high endpoint is replaced and the result is `(0, 1, 0, 1)`. -/
theorem C10_update_root_range_witness :
    update_root_range fId 0 2 0 2 = (0, 1, 0, 1) ∧
    ((0 : ℝ) ≤ 0 ∧ (0 : ℝ) ≤ 1 ∧ (1 : ℝ) ≤ 2) ∧
    (1 : ℝ) - 0 = (2 - 0) / 2 := by
  have ht : update_root_range fId 0 2 0 2 = (0, 1, 0, 1) := by
    norm_num [update_root_range, fId]
  have h := C10_update_root_range fId 0 2 0 2 (0, 1, 0, 1) ht (by norm_num)
    (by norm_num [fId]) (by norm_num [fId])
  exact ⟨ht, h.1, h.2.1⟩

end PyFiberModes
